import Mathlib

/-
Shallow embedding of src/shape.py (PyNCulture): the Shape/Area data model,
the area-partition operation, the property dictionary, and the seed_neurons
algorithm.  Geometry operations the source delegates to the shapely library
(intersection, buffering, containment, ...) are modeled as a GeomEngine
parameter; numpy floating-point transcendentals are a NumOps parameter.
Coordinates are exact rationals.
-/

namespace PyNC

/-- A 2-D point, as an exact rational pair. -/
abbrev Pt : Type := ℚ × ℚ

/-- A polygon: exterior shell plus interior hole rings
(the closing vertex is not repeated). -/
structure Polygon where
  shell : List Pt
  holes : List (List Pt)
deriving DecidableEq

def listMin : List ℚ → ℚ
  | [] => 0
  | x :: xs => xs.foldl min x

def listMax : List ℚ → ℚ
  | [] => 0
  | x :: xs => xs.foldl max x

/-- x-coordinates of every vertex (shell and holes), as shapely bounds use. -/
def xsOf (p : Polygon) : List ℚ := (p.shell ++ p.holes.flatten).map Prod.fst

def ysOf (p : Polygon) : List ℚ := (p.shell ++ p.holes.flatten).map Prod.snd

/-- x-coordinates of the exterior ring only (the source reads
`polygon.exterior.coords` when computing the scale factor). -/
def exteriorXs (p : Polygon) : List ℚ := p.shell.map Prod.fst

def boundsMinX (p : Polygon) : ℚ := listMin (xsOf p)

def boundsMinY (p : Polygon) : ℚ := listMin (ysOf p)

def boundsMaxX (p : Polygon) : ℚ := listMax (xsOf p)

def boundsMaxY (p : Polygon) : ℚ := listMax (ysOf p)

/-- The shapely bounds tuple (minx, miny, maxx, maxy). -/
def polyBounds (p : Polygon) : ℚ × ℚ × ℚ × ℚ :=
  (boundsMinX p, boundsMinY p, boundsMaxX p, boundsMaxY p)

/-- x of the bounding-box center, the default origin of shapely `scale`. -/
def bbcx (p : Polygon) : ℚ := (boundsMinX p + boundsMaxX p) / 2

/-- y of the bounding-box center. -/
def bbcy (p : Polygon) : ℚ := (boundsMinY p + boundsMaxY p) / 2

/-- `shapely.affinity.scale` with its default origin: scaling about the
bounding-box center, by independent x and y factors. -/
def scalePoly (p : Polygon) (xfact yfact : ℚ) : Polygon :=
  ⟨p.shell.map (fun pt => (bbcx p + xfact * (pt.1 - bbcx p), bbcy p + yfact * (pt.2 - bbcy p))),
   p.holes.map (fun h =>
     h.map (fun pt => (bbcx p + xfact * (pt.1 - bbcx p), bbcy p + yfact * (pt.2 - bbcy p))))⟩

/-- Polygon centroid (shapely `centroid`) by the standard signed-area formula,
for polygons without interior rings (the only ones the modeled claims build);
a degenerate (zero-area) ring yields (0, 0). -/
def centroidPt (p : Polygon) : Pt :=
  let ring := p.shell
  let pairs := ring.zip (ring.drop 1 ++ ring.take 1)
  let a2 := pairs.foldl (fun acc uv => acc + (uv.1.1 * uv.2.2 - uv.2.1 * uv.1.2)) 0
  let sx := pairs.foldl (fun acc uv => acc + (uv.1.1 + uv.2.1) * (uv.1.1 * uv.2.2 - uv.2.1 * uv.1.2)) 0
  let sy := pairs.foldl (fun acc uv => acc + (uv.1.2 + uv.2.2) * (uv.1.1 * uv.2.2 - uv.2.1 * uv.1.2)) 0
  if a2 = 0 then (0, 0) else (sx / (3 * a2), sy / (3 * a2))

/-- Result of a numpy float division: IEEE semantics, so dividing by zero
yields an infinity or NaN (with a RuntimeWarning) instead of raising. -/
inductive NpDiv
  | fin (q : ℚ)
  | posInf
  | negInf
  | nan
deriving DecidableEq

def npDiv (a b : ℚ) : NpDiv :=
  if b ≠ 0 then .fin (a / b) else if 0 < a then .posInf else if a < 0 then .negInf else .nan

/-- Python exceptions the modeled code can raise.  `loopBudget` is a modeling
artifact: it stands for the unbounded rejection-sampling while loop running
past the finite fuel given to the model (the source would keep looping). -/
inductive PyError
  | nameError (n : String)
  | valueError (msg : String)
  | assertionError (msg : String)
  | attributeError (msg : String)
  | typeError (msg : String)
  | loopBudget
deriving DecidableEq

instance {ε α : Type} [DecidableEq ε] [DecidableEq α] : DecidableEq (Except ε α) :=
  fun a b =>
    match a, b with
    | .ok x, .ok y =>
        if h : x = y then isTrue (by rw [h]) else isFalse (fun c => h (Except.ok.inj c))
    | .error x, .error y =>
        if h : x = y then isTrue (by rw [h]) else isFalse (fun c => h (Except.error.inj c))
    | .ok _, .error _ => isFalse (fun c => Except.noConfusion c)
    | .error _, .ok _ => isFalse (fun c => Except.noConfusion c)

def exceptOk {ε α : Type} : Except ε α → Bool
  | .ok _ => true
  | .error _ => false

/-- A Python float as stored in a property map: an exact rational or NaN. -/
inductive PyNum
  | num (q : ℚ)
  | nan
deriving DecidableEq

/-- The IEEE comparison `value >= 0` (False for NaN). -/
def PyNum.nonneg : PyNum → Bool
  | .num q => decide (0 ≤ q)
  | .nan => false

/-- `np.isnan(value)`. -/
def PyNum.isnan : PyNum → Bool
  | .num _ => false
  | .nan => true

/-- The contents of a `_PDict`: an insertion-ordered association list, like a
Python dict. -/
abbrev PDict : Type := List (String × PyNum)

/-- Python dict assignment `d[k] = v`: overwrite in place, or append. -/
def assocSet {α : Type} : List (String × α) → String → α → List (String × α)
  | [], k, v => [(k, v)]
  | (k0, v0) :: rest, k, v =>
      if k0 = k then (k, v) :: rest else (k0, v0) :: assocSet rest k v

/-- `_PDict.__getitem__`: returns 1 if the key is not present. -/
def PDict.getitem (d : PDict) (key : String) : PyNum :=
  match d.lookup key with
  | some v => v
  | none => .num 1

/-- `_PDict.__setitem__`: asserts `value >= 0 or np.isnan(value)` before
storing; on failure the dict is not modified. -/
def PDict.setitem (d : PDict) (key : String) (value : PyNum) : Except PyError PDict :=
  if value.nonneg || value.isnan then
    .ok (assocSet d key value)
  else
    .error (.assertionError "The property must be a positive real or NaN.")

/-- An Area: a named sub-region carrying a height and a property dict.
The source class extends Shape; the fields the claims touch are modeled. -/
structure Area where
  geometry : Polygon
  unit : String
  height : ℚ
  name : String
  prop : PDict
deriving DecidableEq

/-- A Shape (the Region of the spec).  `areas_` is the `_areas` dict, mapping
names to the stored value; the value is an `Option Area` because the dict
stores whatever `Area.from_shape` returned.  `parent` holds the node count of
the optional parent graph (only `node_nb()` is ever consulted).  `radius` and
`radii` model the attributes the disk/ellipse factories install.
`scalingNonfinite` records that a nonfinite (inf/nan) numpy scale factor was
applied, in which case the float coordinates leave the rationals and the
`geometry` field keeps the unscaled polygon as a placeholder. -/
structure Shape where
  geometry : Polygon
  unit : String
  geom_type : String
  parent : Option Nat
  areas_ : List (String × Option Area)
  radius : ℚ := 0
  radii : ℚ × ℚ := (0, 0)
  scalingNonfinite : Bool := false
deriving DecidableEq

/-- The shapely operations the source delegates (section 6 of the spec lists
them as external-collaborator contracts).  Restricted to polygon-valued
results, matching the configurations the modeled scenarios exercise. -/
structure GeomEngine where
  intersection : Polygon → Polygon → Polygon
  difference : Polygon → Polygon → Polygon
  overlaps : Polygon → Polygon → Bool
  buffer : Polygon → ℚ → Polygon
  pointBuffer : Pt → ℚ → Polygon
  contains : Polygon → Pt → Bool

/-- The numpy floating transcendentals used by the disk fast path; every
float64 value is a rational, so any instance is a rational-valued function. -/
structure NumOps where
  pi : ℚ
  sqrt : ℚ → ℚ
  cos : ℚ → ℚ
  sin : ℚ → ℚ

/-- `Area.from_shape`: the body computes the scaled object and populates its
fields, but the source function has no return statement, so the Python call
evaluates to None. -/
def Area.from_shape (shape : Polygon) (height : ℚ) (name : String)
    (properties : Option PDict) (unit : String) (min_x max_x : Option ℚ) : Option Area :=
  let scaling : NpDiv :=
    match min_x, max_x with
    | some a, some b => npDiv (b - a) (listMax (exteriorXs shape) - listMin (exteriorXs shape))
    | _, _ => .fin 1
  let _obj : Area :=
    { geometry := match scaling with | .fin s => scalePoly shape s s | _ => shape
      unit := unit
      height := height
      name := name
      prop := properties.getD [] }
  none

/-- `Shape.__init__`: builds the polygon and installs the default-area entry;
the stored value is whatever `Area.from_shape` returned. -/
def Shape.init (shell : List Pt) (holes : List (List Pt)) (unit : String)
    (parent : Option Nat) (default_properties : Option PDict) : Shape :=
  { geometry := ⟨shell, holes⟩
    unit := unit
    geom_type := "Polygon"
    parent := parent
    areas_ := [("default_area",
      Area.from_shape ⟨shell, holes⟩ 0 "default_area" default_properties unit none none)] }

/-- `Shape.from_polygon`: optional rescale by the numpy-float factor
(maxX - minX) / (rightmost - leftmost) applied by shapely `scale` with the
same factor on x and y (about the bounding-box center, no translation), then
conversion to a Shape carrying the default-area entry. -/
def Shape.from_polygon (polygon : Polygon) (min_x max_x : Option ℚ) (unit : String)
    (parent : Option Nat) (default_properties : Option PDict) : Except PyError Shape :=
  let scaling : NpDiv :=
    match min_x, max_x with
    | some a, some b => npDiv (b - a) (listMax (exteriorXs polygon) - listMin (exteriorXs polygon))
    | _, _ => .fin 1
  let p2 : Polygon := match scaling with | .fin s => scalePoly polygon s s | _ => polygon
  Except.ok
    { geometry := p2
      unit := unit
      geom_type := "Polygon"
      parent := parent
      areas_ := [("default_area",
        Area.from_shape p2 0 "default_area" default_properties "um" none none)]
      scalingNonfinite := match scaling with | .fin _ => false | _ => true }

/-- `Shape.rectangle`: four corner points from centroid and half-extents,
then the plain constructor, then the kind tag. -/
def Shape.rectangle (height width : ℚ) (centroid : Pt) (unit : String)
    (parent : Option Nat) (default_properties : Option PDict) : Shape :=
  let half_w := width / 2
  let half_h := height / 2
  let points : List Pt :=
    [(centroid.1 + half_w, centroid.2 + half_h),
     (centroid.1 + half_w, centroid.2 - half_h),
     (centroid.1 - half_w, centroid.2 - half_h),
     (centroid.1 - half_w, centroid.2 + half_h)]
  { Shape.init points [] unit parent default_properties with geom_type := "Rectangle" }

/-- `Shape.disk`: buffer the center point by the radius, rescale (a no-op by
construction) through from_polygon, then tag the kind and store the radius. -/
def Shape.disk (E : GeomEngine) (radius : ℚ) (centroid : Pt) (unit : String)
    (parent : Option Nat) (default_properties : Option PDict) : Except PyError Shape := do
  let minx := centroid.1 - radius
  let maxx := centroid.1 + radius
  let d ← Shape.from_polygon (E.pointBuffer centroid radius) (some minx) (some maxx)
    unit parent default_properties
  Except.ok { d with geom_type := "Disk", radius := radius }

/-- `Shape.ellipse`: buffer the center point by 1, scale anisotropically by
(rx, ry), rescale through from_polygon, then tag and store the radii. -/
def Shape.ellipse (E : GeomEngine) (radii : ℚ × ℚ) (centroid : Pt) (unit : String)
    (parent : Option Nat) (default_properties : Option PDict) : Except PyError Shape := do
  let minx := centroid.1 - radii.1
  let maxx := centroid.1 + radii.1
  let e ← Shape.from_polygon (scalePoly (E.pointBuffer centroid 1) radii.1 radii.2)
    (some minx) (some maxx) unit parent default_properties
  Except.ok { e with geom_type := "Ellipse", radii := radii }

/-- In the source, `add_area` is declared as
`def add_area(area, height=None, name=None, properties=None)`: there is no
`self` parameter and no global named `self`, so every read of the name `self`
in its body raises a NameError. -/
def readSelf : Except PyError Shape := Except.error (PyError.nameError "self")

/-- What a caller can pass positionally into `add_area`; under the missing-self
declaration the receiver becomes `area` and the caller's geometry argument
lands in `height`. -/
inductive AddAreaArg
  | num (q : ℚ)
  | poly (p : Polygon)
  | ar (a : Area)
deriving DecidableEq

/-- The overlap assertion loop of `add_area` over `self._areas.items()`
(dead code: the NameError on `self` precedes it). -/
def checkOverlaps (E : GeomEngine) (inter : Polygon) :
    List (String × Option Area) → Except PyError Unit
  | [] => .ok ()
  | (key, a0) :: rest =>
      if key = "default_area" then checkOverlaps E inter rest
      else
        match a0 with
        | some a =>
            if E.overlaps inter a.geometry then
              .error (.assertionError "Areas of a given Shape should not overlap.")
            else checkOverlaps E inter rest
        | none => .error (.typeError "overlaps expects a geometry, got None")

/-- `Shape.add_area` as written.  A method call `s.add_area(g)` binds `s` to
`area` and `g` to `height`.  The body reads the unbound name `self`, so every
call raises NameError before touching the partition; the remainder of the body
is modeled for completeness but is unreachable (where the receiver bound to
`area` would be isinstance-tested against Area, the model treats it as the
plain Shape it is typed as). -/
def Shape.add_area (E : GeomEngine) (area : Shape) (height : Option AddAreaArg)
    (name : Option String) (properties : Option PDict) : Except PyError Shape := do
  let name1 ← (match name with
    | none => do
        let self ← readSelf
        Except.ok ("area" ++ toString self.areas_.length)
    | some n => Except.ok n)
  let self ← readSelf
  let inter := E.intersection self.geometry area.geometry
  checkOverlaps E inter self.areas_
  let height1 : ℚ :=
    match height with
    | none => 0
    | some (.num q) => q
    | some _ => 0
  let properties1 : PDict := properties.getD []
  let new_area := Area.from_shape inter height1 name1 (some properties1) "um" none none
  let areas1 := assocSet self.areas_ name1 new_area
  match areas1.lookup "default_area" with
  | some (some default_area) =>
      let new_default := E.difference default_area.geometry
        (match new_area with | some na => na.geometry | none => default_area.geometry)
      let newDefaultStored := Area.from_shape new_default default_area.height "default_area"
        (some default_area.prop) "um" none none
      Except.ok { self with areas_ := assocSet areas1 "default_area" newDefaultStored }
  | _ => .error (.attributeError "NoneType object has no attribute difference")

/-- `numpy.random.uniform(a, b, size=n)` as the slice rng[i], ..., rng[i+n-1]
of a unit-uniform stream mapped affinely onto [a, b]. -/
def drawU (rng : ℕ → ℚ) (i : ℕ) (a b : ℚ) (n : ℕ) : List ℚ :=
  (List.range n).map fun j => a + (b - a) * rng (i + j)

/-- Rectangle fast path of `seed_neurons`: x and y drawn independently. -/
def rectanglePoints (rng : ℕ → ℚ) (n : ℕ) (x0 x1 y0 y1 : ℚ) : List Pt :=
  (drawU rng 0 x0 x1 n).zip (drawU rng n y0 y1 n)

/-- Disk fast path of `seed_neurons`: angles uniform over [0, 2*pi) (consuming
rng[0..n)), then radii (R - soma) * sqrt(u) with u uniform over [0, 0.99]
(consuming rng[n..2n)), translated by the centroid. -/
def diskFastPoints (T : NumOps) (rng : ℕ → ℚ) (n : ℕ) (radius soma : ℚ) (c : Pt) : List Pt :=
  (List.range n).map fun j =>
    let theta := (2 * T.pi) * rng j
    let r := (radius - soma) * T.sqrt ((99 / 100 : ℚ) * rng (n + j))
    (r * T.cos theta + c.1, r * T.sin theta + c.2)

/-- The `while len(points) < neurons` rejection loop, with explicit fuel
standing in for the unbounded iteration of the source (each pass draws as many
candidate x then y values as points are still missing, keeps the contained
ones in order, and appends). -/
def rejectionLoop (E : GeomEngine) (rng : ℕ → ℚ) (seedGeom : Polygon)
    (min_x max_x min_y max_y : ℚ) (neurons : ℕ) :
    ℕ → ℕ → List Pt → Except PyError (List Pt)
  | 0, _, pts => if neurons ≤ pts.length then .ok pts else .error .loopBudget
  | fuel + 1, i, pts =>
      if neurons ≤ pts.length then .ok pts
      else
        let k := neurons - pts.length
        let xs := drawU rng i min_x max_x k
        let ys := drawU rng (i + k) min_y max_y k
        let acc := (xs.zip ys).filter fun p => E.contains seedGeom p
        rejectionLoop E rng seedGeom min_x max_x min_y max_y neurons fuel (i + 2 * k) (pts ++ acc)

/-- The generic sampling path of `seed_neurons` (`custom_shape` true).  `bnds`
carries the local variables min_x, min_y, max_x, max_y when the bounds branch
assigned them; on the container-given path they were never assigned, and
reading min_x raises (UnboundLocalError, a NameError).  The source evaluates
`self.intersection(container)` and `seed_area.buffer(-soma_radius)` before
that read, in this order. -/
def customSeed (E : GeomEngine) (rng : ℕ → ℚ) (fuel : ℕ) (s : Shape)
    (container : Polygon) (bnds : Option (ℚ × ℚ × ℚ × ℚ)) (soma_radius : ℚ)
    (neurons : ℕ) : Except PyError (List Pt) :=
  let seed0 := E.intersection s.geometry container
  let buffered := E.buffer seed0 (-soma_radius)
  match bnds with
  | none => .error (.nameError "min_x")
  | some (min_x, min_y, max_x, max_y) => do
      let seed_area ← Shape.from_polygon buffered (some (min_x + soma_radius))
        (some (max_x - soma_radius)) "um" none none
      rejectionLoop E rng seed_area.geometry min_x max_x min_y max_y neurons fuel 0 []

/-- Count resolution at the top of `seed_neurons`: the parent node count
overrides; with no parent and no count the source raises ValueError. -/
def resolveCount (s : Shape) (neurons : Option ℕ) : Option ℕ :=
  match s.parent with
  | some nb => some nb
  | none => neurons

/-- Modelled from the spec: the source imports `conversion_magnitude` from
`geom_utils`, which is not under src/.  Section 4.3 of the spec gives a static
metric-prefix table (um = 1e-6 m, mm = 1e-3, cm = 1e-2, dm = 1e-1, m = 1) and
scaling by the deterministic ratio between the two units. -/
def unitFactor : String → ℚ
  | "um" => 1 / 1000000
  | "mm" => 1 / 1000
  | "cm" => 1 / 100
  | "dm" => 1 / 10
  | "m" => 1
  | _ => 1

/-- Modelled from the spec: ratio converting a coordinate measured in u2 into
the requested unit u1. -/
def conversion_magnitude (u1 u2 : String) : ℚ := unitFactor u2 / unitFactor u1

/-- The axis-aligned box Polygon built by the bounds branch, with the vertex
order of the source. -/
def boxPoly (min_x min_y max_x max_y : ℚ) : Polygon :=
  ⟨[(min_x, min_y), (min_x, max_y), (max_x, max_y), (max_x, min_y)], []⟩

/-- `Shape.seed_neurons`.  The Option bounds model the Python defaults: an
omitted bound is set to -inf or +inf, which clips to the shape bound under
max/min but never equals a finite bound in the Disk-branch tuple comparison
`(xmin, ymin, xmax, ymax) == self.bounds` (any actual polygon has finite
bounds).  `rng` is the unit-uniform random stream, `fuel` bounds the rejection
loop. -/
def Shape.seed_neurons (E : GeomEngine) (T : NumOps) (rng : ℕ → ℚ) (fuel : ℕ)
    (s : Shape) (neurons : Option ℕ) (container : Option Polygon)
    (xmin xmax ymin ymax : Option ℚ) (soma_radius : ℚ) (unit : Option String) :
    Except PyError (List Pt) := do
  let n ← (match resolveCount s neurons with
    | some n => Except.ok n
    | none => Except.error (PyError.valueError "neurons cannot be None if parent is None"))
  let res ← (match container with
    | none =>
        let b := polyBounds s.geometry
        let min_x := match xmin with | none => b.1 | some q => max q b.1
        let min_y := match ymin with | none => b.2.1 | some q => max q b.2.1
        let max_x := match xmax with | none => b.2.2.1 | some q => min q b.2.2.1
        let max_y := match ymax with | none => b.2.2.2 | some q => min q b.2.2.2
        if s.geom_type = "Rectangle" then
          Except.ok (rectanglePoints rng n (min_x + soma_radius) (max_x - soma_radius)
            (min_y + soma_radius) (max_y - soma_radius))
        else if s.geom_type = "Disk" ∧
            (xmin, ymin, xmax, ymax) = (some b.1, some b.2.1, some b.2.2.1, some b.2.2.2) then
          Except.ok (diskFastPoints T rng n s.radius soma_radius (centroidPt s.geometry))
        else
          customSeed E rng fuel s (boxPoly min_x min_y max_x max_y)
            (some (min_x, min_y, max_x, max_y)) soma_radius n
    | some c => customSeed E rng fuel s c none soma_radius n)
  Except.ok (match unit with
    | some u =>
        if u ≠ s.unit then
          res.map fun p => (p.1 * conversion_magnitude u s.unit, p.2 * conversion_magnitude u s.unit)
        else res
    | none => res)

/-- A rational 12-gon inscribed in the circle of radius r about c, standing for
the polygonal circle approximation shapely `buffer` returns for a point (the
vertices lie exactly on the circle and the bounds are exactly c plus or minus
r, as for the shapely approximation). -/
def circle12 (c : Pt) (r : ℚ) : Polygon :=
  ⟨[(c.1 + r, c.2), (c.1 + 4*r/5, c.2 + 3*r/5), (c.1 + 3*r/5, c.2 + 4*r/5),
    (c.1, c.2 + r), (c.1 - 3*r/5, c.2 + 4*r/5), (c.1 - 4*r/5, c.2 + 3*r/5),
    (c.1 - r, c.2), (c.1 - 4*r/5, c.2 - 3*r/5), (c.1 - 3*r/5, c.2 - 4*r/5),
    (c.1, c.2 - r), (c.1 + 3*r/5, c.2 - 4*r/5), (c.1 + 4*r/5, c.2 - 3*r/5)], []⟩

def ptInBox (b : ℚ × ℚ × ℚ × ℚ) (p : Pt) : Bool :=
  decide (b.1 ≤ p.1) && decide (p.1 ≤ b.2.2.1) && decide (b.2.1 ≤ p.2) && decide (p.2 ≤ b.2.2.2)

def crossQ (o a b : Pt) : ℚ := (a.1 - o.1) * (b.2 - o.2) - (a.2 - o.2) * (b.1 - o.1)

/-- Strict-interior membership for a convex counter-clockwise ring (shapely
`contains` excludes the boundary); the concrete engine below uses it on convex
inputs only. -/
def containsConvex (poly : Polygon) (p : Pt) : Bool :=
  match poly.shell with
  | [] => false
  | v0 :: _ =>
      (poly.shell.zip (poly.shell.drop 1 ++ [v0])).all fun uv => decide (0 < crossQ uv.1 uv.2 p)

/-- A concrete geometry-engine instance, agreeing with a real engine on the
configurations the concrete theorems exercise: intersection where the first
operand lies inside the bounding box of the second (then the intersection is
the operand itself), buffering at distance zero (identity on a valid polygon),
containment on convex rings, and a 12-gon point buffer. -/
def EC : GeomEngine :=
  { intersection := fun a b => if a.shell.all (ptInBox (polyBounds b)) then a else ⟨[], []⟩
    difference := fun a _ => a
    overlaps := fun _ _ => false
    buffer := fun p _ => p
    pointBuffer := circle12
    contains := containsConvex }

/-- A concrete stand-in for the numpy transcendentals.  The theorems that use
it do not depend on its numeric accuracy: where it appears in a refutation the
two compared computations differ structurally, not by rounding. -/
def T0 : NumOps := { pi := 3, sqrt := fun _ => 0, cos := fun _ => 1, sin := fun _ => 1 }

/-- A concrete unit-uniform stream. -/
def rng5 : ℕ → ℚ := fun i => if i = 0 then 1/4 else if i = 1 then 1/2 else 0

def sq4 : Polygon := ⟨[(0,0),(4,0),(4,4),(0,4)], []⟩

def sqC6 : Polygon := ⟨[(0,0),(2,0),(2,2),(0,2)], []⟩

/-- A degenerate polygon whose exterior ring has zero horizontal extent. -/
def degPoly : Polygon := ⟨[(0,0),(0,1),(0,2)], []⟩

def areaSpecial : Area :=
  { geometry := sqC6, unit := "um", height := 0, name := "special", prop := [] }

/-- A Shape whose partition already holds a named (non-default) area, as the
overlap-rejection scenario requires. -/
def shapeWithNamed : Shape :=
  { geometry := sq4, unit := "um", geom_type := "Polygon", parent := none,
    areas_ := [("default_area", none), ("special", some areaSpecial)] }

def overlapPoly : Polygon := ⟨[(1,1),(3,1),(3,3),(1,3)], []⟩

def insidePoly : Polygon := ⟨[(1,1),(2,1),(2,2),(1,2)], []⟩

/-- The Disk-kind Shape produced by `Shape.disk EC 1 (0,0) "um" none none`. -/
def dsk0 : Shape :=
  { geometry := circle12 (0,0) 1, unit := "um", geom_type := "Disk", parent := none,
    areas_ := [("default_area", none)], radius := 1 }

/-
Heap model for the `areas` property (`deepcopy(self._areas)`).  A Shape holds
its partition as a mutable dict of mutable Area objects; cells of an explicit
store model Python object identity, so that mutating the returned copy can be
stated against the unchanged original.
-/

/-- A heap cell: the `_areas` dict (name to optional Area reference) or an
Area object. -/
inductive Cell
  | dict (entries : List (String × Option Nat))
  | areaCell (geometry : Polygon) (height : ℚ) (aname : String) (prop : PDict)
deriving DecidableEq

structure Store where
  mem : Nat → Option Cell
  next : Nat

/-- A Region as the heap sees it: a reference to its `_areas` dict cell. -/
structure RegionH where
  partRef : Nat

def Store.set (st : Store) (r : Nat) (c : Cell) : Store :=
  { st with mem := fun n => if n = r then some c else st.mem n }

def Store.alloc (st : Store) (c : Cell) : Nat × Store :=
  (st.next, { mem := fun n => if n = st.next then some c else st.mem n, next := st.next + 1 })

/-- deepcopy of the dict entries: a fresh cell for every referenced Area. -/
def copyEntries : Store → List (String × Option Nat) → List (String × Option Nat) × Store
  | st, [] => ([], st)
  | st, (k, none) :: rest =>
      let (es, st1) := copyEntries st rest
      ((k, none) :: es, st1)
  | st, (k, some r) :: rest =>
      let (r1, st1) := st.alloc ((st.mem r).getD (.dict []))
      let (es, st2) := copyEntries st1 rest
      ((k, some r1) :: es, st2)

/-- The `areas` property: `deepcopy(self._areas)`, returning the root of a
fresh, independent copy of the dict and of every Area in it. -/
def areasSnapshot (st : Store) (s : RegionH) : Nat × Store :=
  match st.mem s.partRef with
  | some (.dict es) =>
      let (es1, st1) := copyEntries st es
      st1.alloc (.dict es1)
  | _ => st.alloc (.dict [])

/-- The references reachable from a dict cell: the cell itself and the Areas
its entries point to. -/
def dictRefs (st : Store) (r : Nat) : List Nat :=
  r :: (match st.mem r with
        | some (.dict es) => es.filterMap Prod.snd
        | _ => [])

/-- Value-level read-back of a stored partition. -/
def readPartition (st : Store) (pr : Nat) : Option (List (String × Option Cell)) :=
  match st.mem pr with
  | some (.dict es) => some (es.map fun kv => (kv.1, kv.2.bind st.mem))
  | _ => none

/-- A mutation a caller can apply to the returned copy: a dict update or
deletion, or a field update on an Area object. -/
inductive Mut
  | dictSet (k : String) (v : Option Nat)
  | dictDel (k : String)
  | setHeight (q : ℚ)
  | setNameF (nm : String)
  | setProp (k : String) (v : PyNum)

def Mut.apply (st : Store) (r : Nat) : Mut → Store
  | .dictSet k v =>
      match st.mem r with
      | some (.dict es) => st.set r (.dict (assocSet es k v))
      | _ => st
  | .dictDel k =>
      match st.mem r with
      | some (.dict es) => st.set r (.dict (es.filter fun kv => kv.1 != k))
      | _ => st
  | .setHeight q =>
      match st.mem r with
      | some (.areaCell g _ nm pr) => st.set r (.areaCell g q nm pr)
      | _ => st
  | .setNameF nm1 =>
      match st.mem r with
      | some (.areaCell g h _ pr) => st.set r (.areaCell g h nm1 pr)
      | _ => st
  | .setProp k v =>
      match st.mem r with
      | some (.areaCell g h nm pr) => st.set r (.areaCell g h nm (assocSet pr k v))
      | _ => st

/-- A concrete store: a Region at cell 0 whose partition holds a default and a
named area. -/
def storeW : Store :=
  { mem := fun n =>
      if n = 0 then some (Cell.dict [("default_area", some 1), ("special", some 2)])
      else if n = 1 then some (Cell.areaCell sq4 0 "default_area" [])
      else if n = 2 then some (Cell.areaCell sqC6 1 "special" [("speed", PyNum.num 2)])
      else none
    next := 3 }

def regionW : RegionH := ⟨0⟩

set_option maxRecDepth 100000

/-- An affine map with nonnegative slope is monotone. -/
theorem affine_mono (c s : ℚ) (hs : 0 ≤ s) : Monotone fun x : ℚ => c + s * (x - c) := by
  intro x y h
  have h1 : s * (x - c) ≤ s * (y - c) := mul_le_mul_of_nonneg_left (sub_le_sub_right h c) hs
  exact add_le_add_left h1 c

theorem foldl_min_map (f : ℚ → ℚ) (hf : Monotone f) (a : ℚ) (l : List ℚ) :
    (l.map f).foldl min (f a) = f (l.foldl min a) := by
  induction l generalizing a with
  | nil => rfl
  | cons x xs ih =>
      simp only [List.map_cons, List.foldl_cons]
      rw [← hf.map_min, ih]

theorem foldl_max_map (f : ℚ → ℚ) (hf : Monotone f) (a : ℚ) (l : List ℚ) :
    (l.map f).foldl max (f a) = f (l.foldl max a) := by
  induction l generalizing a with
  | nil => rfl
  | cons x xs ih =>
      simp only [List.map_cons, List.foldl_cons]
      rw [← hf.map_max, ih]

theorem listMin_map (f : ℚ → ℚ) (hf : Monotone f) (l : List ℚ) (hl : l ≠ []) :
    listMin (l.map f) = f (listMin l) := by
  cases l with
  | nil => exact absurd rfl hl
  | cons x xs =>
      simp only [List.map_cons, listMin]
      exact foldl_min_map f hf x xs

theorem listMax_map (f : ℚ → ℚ) (hf : Monotone f) (l : List ℚ) (hl : l ≠ []) :
    listMax (l.map f) = f (listMax l) := by
  cases l with
  | nil => exact absurd rfl hl
  | cons x xs =>
      simp only [List.map_cons, listMax]
      exact foldl_max_map f hf x xs

theorem xsOf_scalePoly (p : Polygon) (a b : ℚ) :
    xsOf (scalePoly p a b) = (xsOf p).map fun x => bbcx p + a * (x - bbcx p) := by
  have hfun : (Prod.fst ∘ fun pt : Pt => (bbcx p + a * (pt.1 - bbcx p), bbcy p + b * (pt.2 - bbcy p)))
      = ((fun x => bbcx p + a * (x - bbcx p)) ∘ Prod.fst) := funext fun pt => rfl
  simp [xsOf, scalePoly, List.map_append, List.map_flatten, List.map_map, hfun]

theorem xsOf_ne_nil (p : Polygon) (h : p.shell ≠ []) : xsOf p ≠ [] := by
  cases hs : p.shell with
  | nil => exact absurd hs h
  | cons x xs => simp [xsOf, hs]

theorem boundsMinX_scalePoly (p : Polygon) (a b : ℚ) (ha : 0 ≤ a) (h : p.shell ≠ []) :
    boundsMinX (scalePoly p a b) = bbcx p + a * (boundsMinX p - bbcx p) := by
  rw [boundsMinX, xsOf_scalePoly,
    listMin_map _ (affine_mono (bbcx p) a ha) _ (xsOf_ne_nil p h)]
  rfl

theorem boundsMaxX_scalePoly (p : Polygon) (a b : ℚ) (ha : 0 ≤ a) (h : p.shell ≠ []) :
    boundsMaxX (scalePoly p a b) = bbcx p + a * (boundsMaxX p - bbcx p) := by
  rw [boundsMaxX, xsOf_scalePoly,
    listMax_map _ (affine_mono (bbcx p) a ha) _ (xsOf_ne_nil p h)]
  rfl

theorem store_set_mem_ne (st : Store) (r : Nat) (c : Cell) (n : Nat) (h : n ≠ r) :
    (st.set r c).mem n = st.mem n := by
  simp [Store.set, h]

theorem copyEntries_next_le (es : List (String × Option Nat)) (st : Store) :
    st.next ≤ (copyEntries st es).2.next := by
  induction es generalizing st with
  | nil => simp [copyEntries]
  | cons kv rest ih =>
      obtain ⟨k, v⟩ := kv
      cases v with
      | none => simpa [copyEntries] using ih st
      | some r =>
          have h1 := ih (st.alloc ((st.mem r).getD (.dict []))).2
          simp only [copyEntries]
          exact le_trans (Nat.le_succ st.next) h1

theorem copyEntries_mem_lt (es : List (String × Option Nat)) (st : Store) (m : Nat)
    (hm : m < st.next) : (copyEntries st es).2.mem m = st.mem m := by
  induction es generalizing st with
  | nil => simp [copyEntries]
  | cons kv rest ih =>
      obtain ⟨k, v⟩ := kv
      cases v with
      | none => simpa [copyEntries] using ih st hm
      | some r =>
          have h1 := ih (st.alloc ((st.mem r).getD (.dict []))).2
            (lt_trans hm (Nat.lt_succ_self st.next))
          simp only [copyEntries]
          rw [h1]
          simp [Store.alloc, Nat.ne_of_lt hm]

theorem copyEntries_refs_ge (es : List (String × Option Nat)) (st : Store) :
    ∀ r ∈ (copyEntries st es).1.filterMap Prod.snd, st.next ≤ r := by
  induction es generalizing st with
  | nil => simp [copyEntries]
  | cons kv rest ih =>
      obtain ⟨k, v⟩ := kv
      cases v with
      | none =>
          intro r hr
          simp only [copyEntries, List.filterMap_cons] at hr
          exact ih st r hr
      | some r0 =>
          intro r hr
          simp only [copyEntries, List.filterMap_cons] at hr
          rcases List.mem_cons.mp hr with h | h
          · exact le_of_eq h.symm
          · exact le_trans (Nat.le_succ st.next)
              (ih (st.alloc ((st.mem r0).getD (.dict []))).2 r h)

theorem areasSnapshot_mem_lt (st : Store) (s : RegionH) (m : Nat) (hm : m < st.next) :
    (areasSnapshot st s).2.mem m = st.mem m := by
  unfold areasSnapshot
  cases hc : st.mem s.partRef with
  | none => simp [Store.alloc, Nat.ne_of_lt hm]
  | some c =>
      cases c with
      | areaCell g h nm pr => simp [Store.alloc, Nat.ne_of_lt hm]
      | dict es =>
          have h1 : m < (copyEntries st es).2.next := lt_of_lt_of_le hm (copyEntries_next_le es st)
          simp only [Store.alloc]
          rw [if_neg (Nat.ne_of_lt h1)]
          exact copyEntries_mem_lt es st m hm

theorem areasSnapshot_refs_ge (st : Store) (s : RegionH) :
    ∀ u ∈ dictRefs (areasSnapshot st s).2 (areasSnapshot st s).1, st.next ≤ u := by
  intro u hu
  unfold areasSnapshot at hu
  cases hc : st.mem s.partRef with
  | none =>
      rw [hc] at hu
      simp [dictRefs, Store.alloc] at hu
      exact le_of_eq hu.symm
  | some c =>
      cases c with
      | areaCell g h nm pr =>
          rw [hc] at hu
          simp [dictRefs, Store.alloc] at hu
          exact le_of_eq hu.symm
      | dict es =>
          rw [hc] at hu
          simp only [dictRefs, Store.alloc, if_true] at hu
          rcases List.mem_cons.mp hu with h | h
          · exact le_trans (copyEntries_next_le es st) (le_of_eq h.symm)
          · exact copyEntries_refs_ge es st u h

theorem readPartition_congr (st st2 : Store) (pr : Nat)
    (h : ∀ n ∈ dictRefs st pr, st2.mem n = st.mem n) :
    readPartition st2 pr = readPartition st pr := by
  have hpr : st2.mem pr = st.mem pr := h pr (by simp [dictRefs])
  unfold readPartition
  rw [hpr]
  cases hc : st.mem pr with
  | none => rfl
  | some c =>
      cases c with
      | areaCell g hh nm prp => rfl
      | dict es =>
          simp only [Option.some.injEq]
          apply List.map_congr_left
          intro kv hkv
          cases hv : kv.2 with
          | none => rfl
          | some r =>
              have hr : r ∈ dictRefs st pr := by
                simp only [dictRefs, hc]
                exact List.mem_cons.mpr (Or.inr (List.mem_filterMap.mpr ⟨kv, hkv, hv⟩))
              simp [h r hr]

theorem mut_apply_mem_ne (st : Store) (r : Nat) (m : Mut) (n : Nat) (h : n ≠ r) :
    (Mut.apply st r m).mem n = st.mem n := by
  cases m <;> simp only [Mut.apply] <;>
    (cases st.mem r with
     | none => rfl
     | some c => cases c <;> simp [store_set_mem_ne st r _ n h])

/-- C1: every fresh construction (plain constructor and the from_polygon,
rectangle, disk and ellipse factories) stores the Python value None under the
single key "default_area", because `Area.from_shape` has no return statement.
The claimed Area (full geometry, height 0, empty properties) is never stored. -/
theorem default_area_entry_is_none :
    (Shape.init [(0,0),(4,0),(4,4),(0,4)] [] "um" none none).areas_ = [("default_area", none)]
    ∧ (Shape.from_polygon sq4 none none "um" none none).map (fun s => s.areas_)
        = Except.ok [("default_area", none)]
    ∧ (Shape.rectangle 4 4 (0,0) "um" none none).areas_ = [("default_area", none)]
    ∧ (Shape.disk EC 1 (0,0) "um" none none).map (fun s => s.areas_)
        = Except.ok [("default_area", none)]
    ∧ (Shape.ellipse EC (2,1) (0,0) "um" none none).map (fun s => s.areas_)
        = Except.ok [("default_area", none)] :=
  ⟨rfl, rfl, rfl, rfl, rfl⟩

/-- C4: `add_area` is declared without a `self` parameter, so the receiver
binds to `area`; every invocation raises NameError on the unbound name `self`
and therefore never inserts into or modifies any partition (an error return
carries no updated Shape). -/
theorem add_area_always_raises_name_error (E : GeomEngine) (area : Shape)
    (height : Option AddAreaArg) (name : Option String) (properties : Option PDict) :
    Shape.add_area E area height name properties = Except.error (PyError.nameError "self") := by
  cases name <;> rfl

/-- C2: in the claimed scenario (a partition already holding the named area
"special", a new geometry overlapping it) the call fails with
NameError("self") from the missing self parameter, before the overlap check
runs, rather than with the specified overlap error; no mutation occurs. -/
theorem add_area_overlap_raises_name_error :
    Shape.add_area EC shapeWithNamed (some (AddAreaArg.poly overlapPoly)) none none
      = Except.error (PyError.nameError "self") := rfl

/-- C3: in the claimed scenario (only the default area present, a geometry
fully inside the Region) the call fails with NameError("self") instead of
inserting the area and shrinking the default area. -/
theorem add_area_inside_raises_name_error :
    Shape.add_area EC (Shape.rectangle 4 4 (2,2) "um" none none)
      (some (AddAreaArg.poly insidePoly)) none none
      = Except.error (PyError.nameError "self") := rfl

/-- C7: whenever a container is passed (and a count is derivable), the generic
sampling branch reads the local min_x that was never assigned on that path,
raising NameError before any candidate point is drawn; no positions are ever
returned from a container-masked call. -/
theorem seed_neurons_container_raises_name_error (E : GeomEngine) (T : NumOps)
    (rng : ℕ → ℚ) (fuel : ℕ) (s : Shape) (neurons : Option ℕ) (c : Polygon)
    (xmin xmax ymin ymax : Option ℚ) (soma : ℚ) (unit : Option String) (n0 : ℕ)
    (hn : resolveCount s neurons = some n0) :
    Shape.seed_neurons E T rng fuel s neurons (some c) xmin xmax ymin ymax soma unit
      = Except.error (PyError.nameError "min_x") := by
  simp only [Shape.seed_neurons, hn, customSeed]
  rfl

theorem seed_neurons_container_raises_name_error_witness :
    Shape.seed_neurons EC T0 rng5 9 dsk0 (some 1) (some sqC6) none none none none 0 none
      = Except.error (PyError.nameError "min_x") :=
  seed_neurons_container_raises_name_error EC T0 rng5 9 dsk0 (some 1) sqC6
    none none none none 0 none 1 rfl

/-- C9: a lookup on an absent key yields the neutral 1; setting a negative
non-NaN value fails the assertion (the error return carries no updated dict,
so the map is unchanged); setting NaN or a non-negative value succeeds. -/
theorem pdict_default_read_and_setitem_validation (d : PDict) (k k1 k2 k3 : String)
    (qn qp : ℚ) (habs : d.lookup k = none) (hneg : qn < 0) (hpos : 0 ≤ qp) :
    PDict.getitem d k = PyNum.num 1
    ∧ PDict.setitem d k1 (PyNum.num qn)
        = Except.error (PyError.assertionError "The property must be a positive real or NaN.")
    ∧ exceptOk (PDict.setitem d k2 PyNum.nan) = true
    ∧ exceptOk (PDict.setitem d k3 (PyNum.num qp)) = true := by
  refine ⟨?_, ?_, rfl, ?_⟩
  · simp [PDict.getitem, habs]
  · simp [PDict.setitem, PyNum.nonneg, PyNum.isnan, not_le.mpr hneg]
  · simp [PDict.setitem, PyNum.nonneg, PyNum.isnan, hpos, exceptOk]

/-- C5 (amended): the disk fast path runs only when the caller explicitly
passes bounds equal to the region's natural bounds (an omitted bound defaults
to an infinity, which fails the tuple comparison with the finite bounds); in
that case every returned point is (r cos theta + cx, r sin theta + cy) with
theta uniform over [0, 2 pi), r = (R - soma) sqrt(u), u uniform over [0, 0.99],
and (cx, cy) the centroid of the region geometry. -/
theorem disk_fast_path_with_explicit_bounds (E : GeomEngine) (T : NumOps)
    (rng : ℕ → ℚ) (fuel : ℕ) (s : Shape) (n : ℕ) (soma : ℚ) (b0 b1 b2 b3 : ℚ)
    (hk : s.geom_type = "Disk") (hp : s.parent = none)
    (hb : polyBounds s.geometry = (b0, b1, b2, b3)) :
    Shape.seed_neurons E T rng fuel s (some n) none (some b0) (some b2) (some b1) (some b3) soma none
      = Except.ok (diskFastPoints T rng n s.radius soma (centroidPt s.geometry)) := by
  have hne : (("Disk" : String) = "Rectangle") = False := eq_false (by decide)
  simp [Shape.seed_neurons, resolveCount, hp, hb, hk, hne]
  rfl

theorem disk_fast_path_with_explicit_bounds_witness :
    Shape.seed_neurons EC T0 rng5 9 dsk0 (some 1) none (some (-1)) (some 1) (some (-1)) (some 1) 0 none
      = Except.ok (diskFastPoints T0 rng5 1 dsk0.radius 0 (centroidPt dsk0.geometry)) :=
  disk_fast_path_with_explicit_bounds EC T0 rng5 9 dsk0 1 0 (-1) (-1) 1 1
    rfl rfl (by with_unfolding_all rfl)

/-- C5 counterexample: on a Disk-kind region with the bounds omitted, the
call returns points from the generic rejection path (here (-1/2, 0), drawn
directly from the uniform stream over the bounding box), which differ from
the disk fast-path formula output on the same stream: the parenthetical of the
claim, that omitted bounds also take the fast path, is false. -/
theorem disk_fast_path_not_taken_when_bounds_omitted :
    Shape.disk EC 1 (0,0) "um" none none = Except.ok dsk0
    ∧ Shape.seed_neurons EC T0 rng5 9 dsk0 (some 1) none none none none none 0 none
        = Except.ok [((-1)/2, 0)]
    ∧ diskFastPoints T0 rng5 1 dsk0.radius 0 (centroidPt dsk0.geometry) = [(0, 0)]
    ∧ Shape.seed_neurons EC T0 rng5 9 dsk0 (some 1) none none none none none 0 none
        ≠ Except.ok (diskFastPoints T0 rng5 1 dsk0.radius 0 (centroidPt dsk0.geometry)) :=
  ⟨by with_unfolding_all rfl, by with_unfolding_all rfl, by with_unfolding_all rfl,
   by with_unfolding_all decide⟩

theorem pdict_default_read_and_setitem_validation_witness :
    PDict.getitem [("speed", PyNum.num 2)] "missing" = PyNum.num 1
    ∧ PDict.setitem [("speed", PyNum.num 2)] "k" (PyNum.num (-1))
        = Except.error (PyError.assertionError "The property must be a positive real or NaN.")
    ∧ exceptOk (PDict.setitem [("speed", PyNum.num 2)] "k" PyNum.nan) = true
    ∧ exceptOk (PDict.setitem [("speed", PyNum.num 2)] "k" (PyNum.num 5)) = true :=
  pdict_default_read_and_setitem_validation [("speed", PyNum.num 2)] "missing" "k" "k" "k"
    (-1) 5 (by decide) (by decide) (by decide)

/-- C6 (amended): with both bounds given, from_polygon scales isotropically by
the factor (maxX - minX) / (rightmost - leftmost) of the exterior ring, but
shapely scale acts about the bounding-box center with no translation: the
resulting horizontal extent is the original extent scaled about that center
(width maxX - minX when the box equals the shell extent), not the interval
[minX, maxX] in general. -/
theorem from_polygon_scales_isotropically_about_center (p : Polygon) (a b : ℚ) (u : String)
    (hne : p.shell ≠ []) (hlt : listMin (exteriorXs p) < listMax (exteriorXs p)) (hab : a < b) :
    (Shape.from_polygon p (some a) (some b) u none none).map (fun sh => sh.geometry)
        = Except.ok (scalePoly p ((b - a) / (listMax (exteriorXs p) - listMin (exteriorXs p)))
            ((b - a) / (listMax (exteriorXs p) - listMin (exteriorXs p))))
    ∧ boundsMinX (scalePoly p ((b - a) / (listMax (exteriorXs p) - listMin (exteriorXs p)))
          ((b - a) / (listMax (exteriorXs p) - listMin (exteriorXs p))))
        = bbcx p + ((b - a) / (listMax (exteriorXs p) - listMin (exteriorXs p))) * (boundsMinX p - bbcx p)
    ∧ boundsMaxX (scalePoly p ((b - a) / (listMax (exteriorXs p) - listMin (exteriorXs p)))
          ((b - a) / (listMax (exteriorXs p) - listMin (exteriorXs p))))
        = bbcx p + ((b - a) / (listMax (exteriorXs p) - listMin (exteriorXs p))) * (boundsMaxX p - bbcx p) := by
  have hz : listMax (exteriorXs p) - listMin (exteriorXs p) ≠ 0 :=
    sub_ne_zero.mpr (ne_of_gt hlt)
  have hs : 0 ≤ (b - a) / (listMax (exteriorXs p) - listMin (exteriorXs p)) :=
    le_of_lt (div_pos (sub_pos.mpr hab) (sub_pos.mpr hlt))
  refine ⟨?_, boundsMinX_scalePoly p _ _ hs hne, boundsMaxX_scalePoly p _ _ hs hne⟩
  simp [Shape.from_polygon, npDiv, hz]
  rfl

theorem from_polygon_scales_isotropically_about_center_witness :
    (Shape.from_polygon sqC6 (some 10) (some 14) "um" none none).map (fun sh => sh.geometry)
        = Except.ok (scalePoly sqC6 ((14 - 10) / (listMax (exteriorXs sqC6) - listMin (exteriorXs sqC6)))
            ((14 - 10) / (listMax (exteriorXs sqC6) - listMin (exteriorXs sqC6))))
    ∧ boundsMinX (scalePoly sqC6 ((14 - 10) / (listMax (exteriorXs sqC6) - listMin (exteriorXs sqC6)))
          ((14 - 10) / (listMax (exteriorXs sqC6) - listMin (exteriorXs sqC6))))
        = bbcx sqC6 + ((14 - 10) / (listMax (exteriorXs sqC6) - listMin (exteriorXs sqC6))) * (boundsMinX sqC6 - bbcx sqC6)
    ∧ boundsMaxX (scalePoly sqC6 ((14 - 10) / (listMax (exteriorXs sqC6) - listMin (exteriorXs sqC6)))
          ((14 - 10) / (listMax (exteriorXs sqC6) - listMin (exteriorXs sqC6))))
        = bbcx sqC6 + ((14 - 10) / (listMax (exteriorXs sqC6) - listMin (exteriorXs sqC6))) * (boundsMaxX sqC6 - bbcx sqC6) :=
  from_polygon_scales_isotropically_about_center sqC6 10 14 "um"
    (by decide) (by decide) (by decide)

/-- C6 counterexample: rescaling the square with corners (0,0) and (2,2) with
minX = 10 and maxX = 14 yields horizontal extent [-1, 3] (width 4 about the
original center x = 1), not [10, 14] as the claim states. -/
theorem from_polygon_extent_not_min_max :
    (Shape.from_polygon sqC6 (some 10) (some 14) "um" none none).map
        (fun sh => (boundsMinX sh.geometry, boundsMaxX sh.geometry)) = Except.ok (-1, 3)
    ∧ ((-1 : ℚ), (3 : ℚ)) ≠ ((10 : ℚ), (14 : ℚ)) :=
  ⟨by with_unfolding_all rfl, by decide⟩

/-- C8 (amended): zero-width scaling (rightmost equal to leftmost with both
bounds given) does not fail: the numpy division follows IEEE semantics and
yields an infinite scale factor, and from_polygon returns a Shape flagged as
carrying nonfinite scaled coordinates. -/
theorem from_polygon_zero_width_nonfinite_scaling (p : Polygon) (a b : ℚ) (u : String)
    (hz : listMax (exteriorXs p) = listMin (exteriorXs p)) (hab : a < b) :
    (Shape.from_polygon p (some a) (some b) u none none).map (fun sh => sh.scalingNonfinite)
      = Except.ok true := by
  have hpos : 0 < b - a := sub_pos.mpr hab
  simp [Shape.from_polygon, npDiv, hz, sub_self, hpos]
  rfl

theorem from_polygon_zero_width_nonfinite_scaling_witness :
    (Shape.from_polygon degPoly (some (-5000)) (some 5000) "um" none none).map
        (fun sh => sh.scalingNonfinite) = Except.ok true :=
  from_polygon_zero_width_nonfinite_scaling degPoly (-5000) 5000 "um"
    (by decide) (by decide)

/-- C8 counterexample: the degenerate polygon whose exterior ring has zero
horizontal extent, rescaled with bounds given, does not fail with any error:
the call returns ok. -/
theorem from_polygon_zero_width_no_error :
    exceptOk (Shape.from_polygon degPoly (some (-5000)) (some 5000) "um" none none) = true := rfl

/-- C10: the areas accessor returns a deep, independent copy: every reference
reachable from the returned snapshot is fresh, so applying any mutation (a
dict update or delete, or a field update of an Area object) at any reference
reachable from the copy leaves the Region's stored partition reading exactly
as before the access. -/
theorem areas_snapshot_mutation_independent (st : Store) (s : RegionH) (m : Mut) (t : Nat)
    (hwf : ∀ r ∈ dictRefs st s.partRef, r < st.next)
    (ht : t ∈ dictRefs (areasSnapshot st s).2 (areasSnapshot st s).1) :
    readPartition (Mut.apply (areasSnapshot st s).2 t m) s.partRef
      = readPartition st s.partRef := by
  have hts : st.next ≤ t := areasSnapshot_refs_ge st s t ht
  apply readPartition_congr
  intro n hn
  have hlt : n < st.next := hwf n hn
  have hne2 : n ≠ t := Nat.ne_of_lt (lt_of_lt_of_le hlt hts)
  rw [mut_apply_mem_ne _ _ _ _ hne2, areasSnapshot_mem_lt st s n hlt]

theorem areas_snapshot_mutation_independent_witness :
    readPartition (Mut.apply (areasSnapshot storeW regionW).2 3 (Mut.setHeight 9)) regionW.partRef
      = readPartition storeW regionW.partRef :=
  areas_snapshot_mutation_independent storeW regionW (Mut.setHeight 9) 3
    (by decide) (by decide)

end PyNC
